import Mathlib

/-!
Verification of the job-alert pipeline (`job_alert.py`): a shallow embedding of
the identity/dedup stage, the fetch retry loop, the report renderer, and the
delivery fallback chain, with theorems settling the specification's claims.

Conventions of the embedding:
* a Python dict field is `Option (Option String)`: the outer `Option` is key
  presence, the inner one distinguishes `None` from a string value;
* `dict.get(k, d)` is `Option.getD` on the outer layer;
* Python string truthiness (`if link:`) is "present, not None, not empty";
* machine words in SHA-256 are `Nat` reduced `% 2 ^ 32`;
* operations that can raise (`None + str` in `job_id`) land in `Except Unit`.
-/

namespace JobAlert

/-! ## SHA-256 (`hashlib.sha256(...).hexdigest()`), over UTF-8 byte lists -/

def sha256K : List Nat :=
  [1116352408, 1899447441, 3049323471, 3921009573, 961987163,
   1508970993, 2453635748, 2870763221, 3624381080, 310598401,
   607225278, 1426881987, 1925078388, 2162078206, 2614888103,
   3248222580, 3835390401, 4022224774, 264347078, 604807628,
   770255983, 1249150122, 1555081692, 1996064986, 2554220882,
   2821834349, 2952996808, 3210313671, 3336571891, 3584528711,
   113926993, 338241895, 666307205, 773529912, 1294757372,
   1396182291, 1695183700, 1986661051, 2177026350, 2456956037,
   2730485921, 2820302411, 3259730800, 3345764771, 3516065817,
   3600352804, 4094571909, 275423344, 430227734, 506948616,
   659060556, 883997877, 958139571, 1322822218, 1537002063,
   1747873779, 1955562222, 2024104815, 2227730452, 2361852424,
   2428436474, 2756734187, 3204031479, 3329325298]

def sha256H0 : List Nat :=
  [1779033703, 3144134277, 1013904242, 2773480762, 1359893119,
   2600822924, 528734635, 1541459225]

/-- Right rotation of a 32-bit word. -/
def rotr32 (x n : Nat) : Nat := x / 2 ^ n + x % 2 ^ n * 2 ^ (32 - n)

/-- 32-bit complement. -/
def comp32 (x : Nat) : Nat := 4294967295 ^^^ x

/-- `k` big-endian bytes of `n`. -/
def beBytes : Nat → Nat → List Nat
  | 0, _ => []
  | k + 1, n => beBytes k (n / 256) ++ [n % 256]

/-- SHA-256 padding: `0x80`, zeros to 56 mod 64, then the 64-bit bit length. -/
def padBytes (msg : List Nat) : List Nat :=
  msg ++ 0x80 :: List.replicate ((55 + 64 - msg.length % 64) % 64) 0 ++ beBytes 8 (8 * msg.length)

/-- Big-endian 32-bit words of a byte list. -/
def wordsOf : List Nat → List Nat
  | b0 :: b1 :: b2 :: b3 :: rest => (((b0 * 256 + b1) * 256 + b2) * 256 + b3) :: wordsOf rest
  | _ => []

def ssig0 (x : Nat) : Nat := rotr32 x 7 ^^^ rotr32 x 18 ^^^ x / 2 ^ 3
def ssig1 (x : Nat) : Nat := rotr32 x 17 ^^^ rotr32 x 19 ^^^ x / 2 ^ 10

/-- Message-schedule extension: append `fuel` more words. -/
def sched (w : List Nat) : Nat → List Nat
  | 0 => w
  | f + 1 =>
    let n := w.length
    sched (w ++ [(w.getD (n - 16) 0 + ssig0 (w.getD (n - 15) 0) + w.getD (n - 7) 0 +
      ssig1 (w.getD (n - 2) 0)) % 4294967296]) f

/-- One round of the SHA-256 compression function on state `[a..h]`. -/
def compressStep (st : List Nat) (kw : Nat × Nat) : List Nat :=
  match st with
  | [a, b, c, d, e, f, g, h] =>
    let S1 := rotr32 e 6 ^^^ rotr32 e 11 ^^^ rotr32 e 25
    let ch := (e &&& f) ^^^ (comp32 e &&& g)
    let t1 := (h + S1 + ch + kw.1 + kw.2) % 4294967296
    let S0 := rotr32 a 2 ^^^ rotr32 a 13 ^^^ rotr32 a 22
    let maj := (a &&& b) ^^^ (a &&& c) ^^^ (b &&& c)
    let t2 := (S0 + maj) % 4294967296
    [(t1 + t2) % 4294967296, a, b, c, (d + t1) % 4294967296, e, f, g]
  | _ => st

def compressBlock (h : List Nat) (block : List Nat) : List Nat :=
  let w := sched block 48
  let st := (sha256K.zip w).foldl compressStep h
  (h.zip st).map fun p => (p.1 + p.2) % 4294967296

def blocksGo (h : List Nat) (ws : List Nat) : Nat → List Nat
  | 0 => h
  | n + 1 => blocksGo (compressBlock h (ws.take 16)) (ws.drop 16) n

def sha256Words (msg : List Nat) : List Nat :=
  let ws := wordsOf (padBytes msg)
  blocksGo sha256H0 ws (ws.length / 16)

def hexDigit (n : Nat) : Char := if n < 10 then Char.ofNat (48 + n) else Char.ofNat (87 + n)

def hexWord (n : Nat) : String :=
  String.mk ((List.range 8).map fun i => hexDigit (n / 16 ^ (7 - i) % 16))

/-- UTF-8 encoding of one character (`str.encode("utf-8")`). -/
def utf8Bytes (c : Char) : List Nat :=
  let n := c.toNat
  if n < 0x80 then [n]
  else if n < 0x800 then [0xc0 + n / 64, 0x80 + n % 64]
  else if n < 0x10000 then [0xe0 + n / 4096, 0x80 + n / 64 % 64, 0x80 + n % 64]
  else [0xf0 + n / 262144, 0x80 + n / 4096 % 64, 0x80 + n / 64 % 64, 0x80 + n % 64]

def strBytes (s : String) : List Nat := (s.toList.map utf8Bytes).flatten

/-- `hashlib.sha256(s.encode("utf-8")).hexdigest()`. -/
def sha256hex (s : String) : String := String.join ((sha256Words (strBytes s)).map hexWord)

/-! ## Python string helpers -/

/-- Characters removed by `str.strip()` (Python whitespace). -/
def isPySpace (c : Char) : Bool :=
  let n := c.toNat
  (9 ≤ n && n ≤ 13) || n = 32 || (28 ≤ n && n ≤ 31) || n = 133 || n = 160 || n = 0x1680 ||
  (0x2000 ≤ n && n ≤ 0x200a) || n = 0x2028 || n = 0x2029 || n = 0x202f || n = 0x205f || n = 0x3000

/-- `s.strip()`: drop leading and trailing whitespace. -/
def pyStrip (s : String) : String :=
  String.mk (((s.toList.dropWhile isPySpace).reverse.dropWhile isPySpace).reverse)

/-- `s.lower()` (ASCII case fold suffices for the configured keywords). -/
def pyLower (s : String) : String := String.mk (s.toList.map Char.toLower)

/-! ## Data model

A scraped job is a Python dict with keys `title`, `link`, `company`, `source`;
each key may be absent (outer `none`) or bound to `None` (inner `none`). -/

structure Job where
  title : Option (Option String)
  link : Option (Option String)
  company : Option (Option String)
  source : Option (Option String)
deriving DecidableEq, Repr

/-- `dict.get(k, "")`: absent key reads as the empty string, `None` stays `None`. -/
def pyGetStr (f : Option (Option String)) : Option String := f.getD (some "")

/-- Python truthiness of an optional string: not `None` and not empty. -/
def truthy : Option String → Bool
  | some s => s ≠ ""
  | none => false

/-- `KEYWORDS` from the configuration block. -/
def KEYWORDS : List String :=
  ["video editor", "junior video editor", "entry level video editor", "video intern",
   "youtube video editor"]

/-- `keywords_match(title)`: case-fold then substring containment against any keyword.
The argument is the value of `it.get("title", "")`, so possibly `None`. -/
def keywords_match (title : Option String) : Bool :=
  KEYWORDS.any fun k => decide (k.toList <:+: (pyLower (title.getD "")).toList)

/-- `job_id(job)`: the link when truthy, otherwise the SHA-256 of the stripped
`title|company|source` concatenation. A key bound to `None` makes the Python
string concatenation raise `TypeError`, modelled as `Except.error`. -/
def job_id (j : Job) : Except Unit String :=
  match j.link.getD none with
  | some l =>
    if l = "" then
      match pyGetStr j.title, pyGetStr j.company, pyGetStr j.source with
      | some t, some c, some s => .ok (sha256hex (pyStrip (t ++ "|" ++ c ++ "|" ++ s)))
      | _, _, _ => .error ()
    else .ok l
  | none =>
    match pyGetStr j.title, pyGetStr j.company, pyGetStr j.source with
    | some t, some c, some s => .ok (sha256hex (pyStrip (t ++ "|" ++ c ++ "|" ++ s)))
    | _, _, _ => .error ()

/-! ## Dedup stage (`main`, step 3) and persistence -/

/-- The dedup loop of `main`:
`for job in found: jid = job_id(job); if jid not in current_ids: new_jobs.append(job); current_ids.add(jid)`.
Returns the new jobs in encounter order and the final id set; a `job_id`
failure aborts the run (`Except.error`). -/
def partitionNew : List Job → Finset String → Except Unit (List Job × Finset String)
  | [], seen => .ok ([], seen)
  | j :: rest, seen =>
    match job_id j with
    | .error e => .error e
    | .ok jid =>
      if jid ∈ seen then partitionNew rest seen
      else
        match partitionNew rest (insert jid seen) with
        | .error e => .error e
        | .ok (new, cur) => .ok (j :: new, cur)

/-- `save_previous(ids)`: the persisted JSON array, `sorted(list(ids))`. -/
def save_previous (ids : Finset String) : List String := ids.sort (· ≤ ·)

/-- `load_previous()` on a stored array: `set(json.loads(...))`. -/
def load_previous (stored : List String) : Finset String := stored.toFinset

/-- All identities of a record list, left to right; errors propagate as in the
run loop. -/
def idsOf : List Job → Except Unit (List String)
  | [] => .ok []
  | j :: rest =>
    match job_id j, idsOf rest with
    | .ok i, .ok is => .ok (i :: is)
    | .error e, _ => .error e
    | .ok _, .error e => .error e

/-- Modelled from the spec (§4.4 `partitionNew`), for the refinement claim:
a record is new iff its identity is absent from the persisted set and from the
identities accepted earlier in the same run; the accepted records keep
encounter order. -/
def specAccept : List (Job × String) → Finset String → Finset String → List Job
  | [], _, _ => []
  | (j, i) :: rest, prior, acc =>
    if i ∉ prior ∧ i ∉ acc then j :: specAccept rest prior (insert i acc)
    else specAccept rest prior acc

/-- Modelled from the spec (§4.4): returns the subsequence of new records and
the seen set expanded with every identity encountered this run. -/
def partitionNewSpec (found : List Job) (seen : Finset String) :
    Except Unit (List Job × Finset String) :=
  match idsOf found with
  | .error e => .error e
  | .ok ids => .ok (specAccept (found.zip ids) seen ∅, seen ∪ ids.toFinset)

/-! ## Source intake (`main`, steps 1 and 2) -/

/-- The per-item mutation in the HTML loop of `main`: set `source` to the
source name and replace a falsy or `"N/A"` company by the placeholder. -/
def setSourceFields (name : String) (it : Job) : Job :=
  let c := it.company.getD none
  { it with
    source := some (some name)
    company :=
      if truthy c = false || c = some "N/A" then some (some ("Unknown (" ++ name ++ ")"))
      else it.company }

/-- The HTML-source loop body of `main`: keep an item iff its title matches the
keywords and its link is truthy, then set source/company fields. -/
def processHtmlItems (name : String) (items : List Job) : List Job :=
  (items.filter fun it => keywords_match (pyGetStr it.title) && truthy (it.link.getD none)).map
    (setSourceFields name)

/-- One job object of the Remotive API response (`data["jobs"]` element), keys
`title`, `url`, `company_name`, each possibly absent or `null`. -/
structure RemotiveJob where
  title : Option (Option String)
  url : Option (Option String)
  company_name : Option (Option String)
deriving DecidableEq, Repr

/-- The record built by `fetch_remotive_jobs` for one API job object: all four
keys present, values straight from `j.get(...)` (so possibly `None`). -/
def remotiveRecord (j : RemotiveJob) : Job :=
  { title := some (j.title.getD none)
    link := some (j.url.getD none)
    company := some (j.company_name.getD none)
    source := some (some "Remotive") }

/-- `fetch_remotive_jobs()` applied to a decoded API job list. -/
def fetch_remotive_jobs (data : List RemotiveJob) : List Job :=
  data.map remotiveRecord

/-- The Remotive loop of `main`: keep a record iff its title matches the
keywords — no link check. -/
def processRemotive (rem : List Job) : List Job :=
  rem.filter fun j => keywords_match (pyGetStr j.title)

/-! ## Fetcher (`safe_get_text`) -/

/-- One HTTP attempt's outcome: a response with a status code and body, or a
`requests.RequestException` (timeout, connection error). -/
inductive HttpOutcome
  | resp (code : Nat) (body : String)
  | exc
deriving DecidableEq, Repr

/-- The environment of one fetch: the outcome of each (1-based) attempt and
the jitter values `random.uniform` would return on that attempt, for the
rate-limit branch (`uniform(5, 10)`) and the exception branch (`uniform(1, 3)`). -/
structure FetchEnv where
  outcome : Nat → HttpOutcome
  jitter429 : Nat → ℚ
  jitterExc : Nat → ℚ

/-- Observable result of `safe_get_text`: the returned text, the list of sleep
durations in order, and the number of loop iterations executed. -/
structure FetchResult where
  text : String
  sleeps : List ℚ
  attempts : Nat
deriving DecidableEq, Repr

/-- The body of `safe_get_text`'s retry loop, at `attempt` with `fuel`
iterations left: 200 returns the body; 429 sleeps `backoff * attempt +
uniform(5, 10)` and retries; 403/401 return `""` at once; any other status
retries with no sleep; an exception sleeps `backoff * attempt + uniform(1, 3)`
and retries. -/
def fetchGo (env : FetchEnv) (backoff : ℚ) : Nat → Nat → FetchResult
  | _, 0 => ⟨"", [], 0⟩
  | attempt, fuel + 1 =>
    match env.outcome attempt with
    | .resp code body =>
      if code = 200 then ⟨body, [], 1⟩
      else if code = 429 then
        let w := backoff * (attempt : ℚ) + env.jitter429 attempt
        let r := fetchGo env backoff (attempt + 1) fuel
        ⟨r.text, w :: r.sleeps, r.attempts + 1⟩
      else if code = 403 ∨ code = 401 then ⟨"", [], 1⟩
      else
        let r := fetchGo env backoff (attempt + 1) fuel
        ⟨r.text, r.sleeps, r.attempts + 1⟩
    | .exc =>
      let w := backoff * (attempt : ℚ) + env.jitterExc attempt
      let r := fetchGo env backoff (attempt + 1) fuel
      ⟨r.text, w :: r.sleeps, r.attempts + 1⟩

/-- `safe_get_text(url, retries, backoff)` under environment `env`. -/
def safe_get_text (env : FetchEnv) (retries : Nat) (backoff : ℚ) : FetchResult :=
  fetchGo env backoff 1 retries

/-! ## Report rendering (`build_html_table`) -/

/-- Rendering of a field in the row f-string: `j.get(key, default)`, with a
`None` value printed as Python prints it. -/
def pyField (f : Option (Option String)) (d : String) : String :=
  match f.getD (some d) with
  | some s => s
  | none => "None"

/-- One `<tr>` string of `build_html_table`, for 1-based index `i`. -/
def jobRowHtml (i : Nat) (j : Job) : String :=
  "\n            <tr>\n                <td style=\"border: 1px solid #ddd; padding: 8px;\">" ++
  toString i ++
  "</td>\n                <td style=\"border: 1px solid #ddd; padding: 8px;\"><a href='" ++
  pyField j.link "#" ++ "' style=\"color:#007bff; text-decoration:none;\">" ++
  pyField j.title "Job Title N/A" ++
  "</a></td>\n                <td style=\"border: 1px solid #ddd; padding: 8px;\">" ++
  pyField j.company "N/A" ++
  "</td>\n                <td style=\"border: 1px solid #ddd; padding: 8px;\">" ++
  pyField j.source "Unknown" ++ "</td>\n            </tr>\n        "

/-- The `rows` list: `for i, j in enumerate(jobs[:100], 1)`. -/
def buildRows (jobs : List Job) : List String :=
  (jobs.take 100).enum.map fun p => jobRowHtml (p.1 + 1) p.2

/-- Template text up to the headline count (`<p>Found <b>`). -/
def tableHead (now : String) : String :=
  "\n        <html>\n        <body style=\"font-family: Arial, sans-serif; line-height: 1.6; color: #333;\">\n            <div style=\"max-width: 800px; margin: auto; padding: 20px; border: 1px solid #eee; border-radius: 10px;\">\n                <h2 style=\"color: #007bff; border-bottom: 2px solid #eee; padding-bottom: 10px;\">\n                    Daily Video Editing Job Alert — " ++
  now ++
  "\n                </h2>\n                <p>Found <b>"

/-- Template text between the headline count and the joined rows. -/
def tableMid : String :=
  "</b> new opportunities matching your keywords: <i>" ++ String.intercalate ", " KEYWORDS ++
  "</i></p>\n                <table style=\"width: 100%; border-collapse: collapse; margin-top: 20px;\">\n                    <thead>\n                        <tr style=\"background-color: #f2f2f2;\">\n                            <th style=\"border: 1px solid #ddd; padding: 10px; text-align: left;\">#</th>\n                            <th style=\"border: 1px solid #ddd; padding: 10px; text-align: left;\">Title</th>\n                            <th style=\"border: 1px solid #ddd; padding: 10px; text-align: left;\">Company</th>\n                            <th style=\"border: 1px solid #ddd; padding: 10px; text-align: left;\">Source</th>\n                        </tr>\n                    </thead>\n                    <tbody>\n                        "

/-- Template text after the rows. -/
def tableFoot : String :=
  "\n                    </tbody>\n                </table>\n                <p style=\"margin-top: 30px; font-size: 0.9em; color: #666;\">\n                    Generated by Job Alert Script.\n                </p>\n            </div>\n        </body>\n        </html>\n    "

/-- `build_html_table(jobs)` with the timestamp passed explicitly. -/
def build_html_table (jobs : List Job) (now : String) : String :=
  if jobs = [] then "<p>No new results on " ++ now ++ ".</p>"
  else
    tableHead now ++ toString jobs.length ++ tableMid ++ String.join (buildRows jobs) ++ tableFoot

/-! ## Delivery (`main`, step 4, and the three send functions) -/

/-- Which credentials are present and what each channel's network call would
report if actually attempted. -/
structure DeliverEnv where
  sendgridKey : Bool
  toEmail : Bool
  fromEmail : Bool
  smtpPass : Bool
  tgToken : Bool
  tgChat : Bool
  sendgridOk : Bool
  gmailOk : Bool
  telegramOk : Bool
deriving DecidableEq, Repr

inductive Channel
  | sendgrid
  | gmail
  | telegram
deriving DecidableEq, Repr

/-- `send_via_sendgrid`: checks its own configuration, then performs one network
send (recorded with its payload) and reports the outcome. -/
def send_via_sendgrid (env : DeliverEnv) (body : String) : Bool × List (Channel × String) :=
  if env.sendgridKey && env.toEmail && env.fromEmail then (env.sendgridOk, [(.sendgrid, body)])
  else (false, [])

/-- `send_via_gmail`: checks its own configuration, then sends. -/
def send_via_gmail (env : DeliverEnv) (body : String) : Bool × List (Channel × String) :=
  if env.fromEmail && env.smtpPass && env.toEmail then (env.gmailOk, [(.gmail, body)])
  else (false, [])

/-- `send_telegram_short`: checks its own configuration, then sends the text. -/
def send_telegram_short (env : DeliverEnv) (text : String) : Bool × List (Channel × String) :=
  if env.tgToken && env.tgChat then (env.telegramOk, [(.telegram, text)])
  else (false, [])

/-- The Telegram summary text of `main`. -/
def telegramSummary (n : Nat) : String :=
  "Found " ++ toString n ++ " new video editor jobs today."

/-- The delivery block of `main` (step 4): SendGrid first, then Gmail if not
yet sent, then Telegram whose result is discarded. Returns the final `sent`
flag and the sends actually performed, in order, with their payloads. -/
def deliveryPhase (env : DeliverEnv) (newJobs : List Job) (now : String) :
    Bool × List (Channel × String) :=
  if newJobs = [] then (false, [])
  else
    let html := build_html_table newJobs now
    let r1 :=
      if env.sendgridKey && env.toEmail && env.fromEmail then send_via_sendgrid env html
      else (false, [])
    let r2 :=
      if !r1.1 && (env.fromEmail && env.smtpPass && env.toEmail) then send_via_gmail env html
      else (r1.1, [])
    let r3 :=
      if !r2.1 && (env.tgToken && env.tgChat) then
        send_telegram_short env (telegramSummary newJobs.length)
      else (false, [])
    (r2.1, r1.2 ++ r2.2 ++ r3.2)

/-! ## Concrete fixtures for the witnesses -/

/-- A keyword-matching record with a link. -/
def jobLinkA : Job := ⟨some (some "A video editor role"), some (some "https://a/1"), none, none⟩

/-- A second keyword-matching record with a different link. -/
def jobLinkB : Job := ⟨some (some "B video editor role"), some (some "https://a/2"), none, none⟩

/-- A record repeating `jobLinkA`'s link with a different title. -/
def jobLinkA2 : Job := ⟨some (some "C video editor role"), some (some "https://a/1"), none, none⟩

/-- A linkless record with plain string fields. -/
def jobHashW : Job := ⟨some (some "a"), none, some (some "b"), some (some "c")⟩

/-- `jobHashW` with a leading space in the title. -/
def jobHashWs : Job := ⟨some (some " a"), none, some (some "b"), some (some "c")⟩

/-- A linkless record with a leading space in the title and empty company and
source strings. -/
def jobHashWe : Job := ⟨some (some " a"), none, some (some ""), some (some "")⟩

/-! ## Lemmas on the dedup loop -/

theorem pn_cons_err {j : Job} {e : Unit} (rest : List Job) (seen : Finset String)
    (hid : job_id j = .error e) : partitionNew (j :: rest) seen = .error e := by
  simp [partitionNew, hid]

theorem pn_cons_mem {j : Job} {jid : String} (rest : List Job) (seen : Finset String)
    (hid : job_id j = .ok jid) (hmem : jid ∈ seen) :
    partitionNew (j :: rest) seen = partitionNew rest seen := by
  simp [partitionNew, hid, hmem]

theorem pn_cons_new_err {j : Job} {jid : String} {e : Unit} (rest : List Job)
    (seen : Finset String) (hid : job_id j = .ok jid) (hmem : jid ∉ seen)
    (hrec : partitionNew rest (insert jid seen) = .error e) :
    partitionNew (j :: rest) seen = .error e := by
  simp [partitionNew, hid, hmem, hrec]

theorem pn_cons_new_ok {j : Job} {jid : String} {new : List Job} {cur : Finset String}
    (rest : List Job) (seen : Finset String) (hid : job_id j = .ok jid) (hmem : jid ∉ seen)
    (hrec : partitionNew rest (insert jid seen) = .ok (new, cur)) :
    partitionNew (j :: rest) seen = .ok (j :: new, cur) := by
  simp [partitionNew, hid, hmem, hrec]

theorem idsOf_cons_err {j : Job} {e : Unit} (rest : List Job) (hid : job_id j = .error e) :
    idsOf (j :: rest) = .error e := by
  simp [idsOf, hid]

theorem idsOf_cons_ok_err {j : Job} {jid : String} {e : Unit} (rest : List Job)
    (hid : job_id j = .ok jid) (hrest : idsOf rest = .error e) :
    idsOf (j :: rest) = .error e := by
  simp [idsOf, hid, hrest]

theorem idsOf_cons_ok_ok {j : Job} {jid : String} {ids : List String} (rest : List Job)
    (hid : job_id j = .ok jid) (hrest : idsOf rest = .ok ids) :
    idsOf (j :: rest) = .ok (jid :: ids) := by
  simp [idsOf, hid, hrest]

theorem pn_subset : ∀ (found : List Job) (seen : Finset String) (new : List Job)
    (cur : Finset String), partitionNew found seen = .ok (new, cur) → seen ⊆ cur := by
  intro found
  induction found with
  | nil =>
    intro seen new cur h
    simp only [partitionNew, Except.ok.injEq, Prod.mk.injEq] at h
    rw [← h.2]
  | cons j rest ih =>
    intro seen new cur h
    cases hid : job_id j with
    | error e => rw [pn_cons_err rest seen hid] at h; exact absurd h (by simp)
    | ok jid =>
      by_cases hmem : jid ∈ seen
      · rw [pn_cons_mem rest seen hid hmem] at h
        exact ih seen new cur h
      · cases hrec : partitionNew rest (insert jid seen) with
        | error e =>
          rw [pn_cons_new_err rest seen hid hmem hrec] at h
          exact absurd h (by simp)
        | ok p =>
          obtain ⟨new2, cur2⟩ := p
          rw [pn_cons_new_ok rest seen hid hmem hrec] at h
          simp only [Except.ok.injEq, Prod.mk.injEq] at h
          rw [← h.2]
          exact fun x hx => ih _ _ _ hrec (Finset.mem_insert_of_mem hx)

theorem pn_new_not_seen : ∀ (found : List Job) (seen : Finset String) (new : List Job)
    (cur : Finset String), partitionNew found seen = .ok (new, cur) →
    ∀ j ∈ new, ∀ i, job_id j = .ok i → i ∉ seen := by
  intro found
  induction found with
  | nil =>
    intro seen new cur h
    simp only [partitionNew, Except.ok.injEq, Prod.mk.injEq] at h
    rw [← h.1]
    intro j hj
    exact absurd hj (List.not_mem_nil j)
  | cons j rest ih =>
    intro seen new cur h
    cases hid : job_id j with
    | error e => rw [pn_cons_err rest seen hid] at h; exact absurd h (by simp)
    | ok jid =>
      by_cases hmem : jid ∈ seen
      · rw [pn_cons_mem rest seen hid hmem] at h
        exact ih seen new cur h
      · cases hrec : partitionNew rest (insert jid seen) with
        | error e =>
          rw [pn_cons_new_err rest seen hid hmem hrec] at h
          exact absurd h (by simp)
        | ok p =>
          obtain ⟨new2, cur2⟩ := p
          rw [pn_cons_new_ok rest seen hid hmem hrec] at h
          simp only [Except.ok.injEq, Prod.mk.injEq] at h
          rw [← h.1]
          intro j' hj' i hi
          rcases List.mem_cons.mp hj' with hj' | hj'
          · subst hj'
            rw [hid] at hi
            cases hi
            exact hmem
          · intro hin
            exact ih _ _ _ hrec j' hj' i hi (Finset.mem_insert_of_mem hin)

theorem pn_found_mem : ∀ (found : List Job) (seen : Finset String) (new : List Job)
    (cur : Finset String), partitionNew found seen = .ok (new, cur) →
    ∀ j ∈ found, ∃ i, job_id j = .ok i ∧ i ∈ cur := by
  intro found
  induction found with
  | nil =>
    intro seen new cur _ j hj
    exact absurd hj (List.not_mem_nil j)
  | cons j rest ih =>
    intro seen new cur h
    cases hid : job_id j with
    | error e => rw [pn_cons_err rest seen hid] at h; exact absurd h (by simp)
    | ok jid =>
      by_cases hmem : jid ∈ seen
      · rw [pn_cons_mem rest seen hid hmem] at h
        intro j' hj'
        rcases List.mem_cons.mp hj' with hj' | hj'
        · subst hj'
          exact ⟨jid, hid, pn_subset rest seen new cur h hmem⟩
        · exact ih seen new cur h j' hj'
      · cases hrec : partitionNew rest (insert jid seen) with
        | error e =>
          rw [pn_cons_new_err rest seen hid hmem hrec] at h
          exact absurd h (by simp)
        | ok p =>
          obtain ⟨new2, cur2⟩ := p
          rw [pn_cons_new_ok rest seen hid hmem hrec] at h
          simp only [Except.ok.injEq, Prod.mk.injEq] at h
          intro j' hj'
          rcases List.mem_cons.mp hj' with hj' | hj'
          · subst hj'
            refine ⟨jid, hid, ?_⟩
            rw [← h.2]
            exact pn_subset _ _ _ _ hrec (Finset.mem_insert_self jid _)
          · obtain ⟨i, hi, hicur⟩ := ih _ _ _ hrec j' hj'
            exact ⟨i, hi, h.2 ▸ hicur⟩

theorem pn_all_seen : ∀ (found : List Job) (seen : Finset String),
    (∀ j ∈ found, ∃ i, job_id j = .ok i ∧ i ∈ seen) →
    partitionNew found seen = .ok ([], seen) := by
  intro found
  induction found with
  | nil => intro seen _; rfl
  | cons j rest ih =>
    intro seen hall
    obtain ⟨i, hi, hiseen⟩ := hall j (List.mem_cons_self j rest)
    rw [pn_cons_mem rest seen hi hiseen]
    exact ih seen fun j' hj' => hall j' (List.mem_cons_of_mem j hj')

theorem pn_sublist : ∀ (found : List Job) (seen : Finset String) (new : List Job)
    (cur : Finset String), partitionNew found seen = .ok (new, cur) → new.Sublist found := by
  intro found
  induction found with
  | nil =>
    intro seen new cur h
    simp only [partitionNew, Except.ok.injEq, Prod.mk.injEq] at h
    rw [← h.1]
  | cons j rest ih =>
    intro seen new cur h
    cases hid : job_id j with
    | error e => rw [pn_cons_err rest seen hid] at h; exact absurd h (by simp)
    | ok jid =>
      by_cases hmem : jid ∈ seen
      · rw [pn_cons_mem rest seen hid hmem] at h
        exact (ih seen new cur h).cons j
      · cases hrec : partitionNew rest (insert jid seen) with
        | error e =>
          rw [pn_cons_new_err rest seen hid hmem hrec] at h
          exact absurd h (by simp)
        | ok p =>
          obtain ⟨new2, cur2⟩ := p
          rw [pn_cons_new_ok rest seen hid hmem hrec] at h
          simp only [Except.ok.injEq, Prod.mk.injEq] at h
          rw [← h.1]
          exact (ih _ _ _ hrec).cons₂ j

theorem pn_pairwise : ∀ (found : List Job) (seen : Finset String) (new : List Job)
    (cur : Finset String), partitionNew found seen = .ok (new, cur) →
    List.Pairwise (fun a b => ∀ ia ib, job_id a = .ok ia → job_id b = .ok ib → ia ≠ ib) new := by
  intro found
  induction found with
  | nil =>
    intro seen new cur h
    simp only [partitionNew, Except.ok.injEq, Prod.mk.injEq] at h
    rw [← h.1]
    exact List.Pairwise.nil
  | cons j rest ih =>
    intro seen new cur h
    cases hid : job_id j with
    | error e => rw [pn_cons_err rest seen hid] at h; exact absurd h (by simp)
    | ok jid =>
      by_cases hmem : jid ∈ seen
      · rw [pn_cons_mem rest seen hid hmem] at h
        exact ih seen new cur h
      · cases hrec : partitionNew rest (insert jid seen) with
        | error e =>
          rw [pn_cons_new_err rest seen hid hmem hrec] at h
          exact absurd h (by simp)
        | ok p =>
          obtain ⟨new2, cur2⟩ := p
          rw [pn_cons_new_ok rest seen hid hmem hrec] at h
          simp only [Except.ok.injEq, Prod.mk.injEq] at h
          rw [← h.1]
          refine List.Pairwise.cons ?_ (ih _ _ _ hrec)
          intro b hb ia ib hia hib heq
          have hji : jid = ia := by
            rw [hid] at hia
            injection hia
          refine pn_new_not_seen _ _ _ _ hrec b hb ib hib ?_
          rw [← heq, ← hji]
          exact Finset.mem_insert_self jid _

theorem pn_spec : ∀ (found : List Job) (prior acc : Finset String),
    partitionNew found (prior ∪ acc) =
      (match idsOf found with
       | .error e => .error e
       | .ok ids =>
         .ok (specAccept (found.zip ids) prior acc, (prior ∪ acc) ∪ ids.toFinset)) := by
  intro found
  induction found with
  | nil => intro prior acc; simp [partitionNew, idsOf, specAccept]
  | cons j rest ih =>
    intro prior acc
    cases hid : job_id j with
    | error e => rw [pn_cons_err rest _ hid, idsOf_cons_err rest hid]
    | ok jid =>
      have hins : insert jid (prior ∪ acc) = prior ∪ insert jid acc := by
        rw [Finset.union_insert]
      cases hrest : idsOf rest with
      | error e =>
        rw [idsOf_cons_ok_err rest hid hrest]
        by_cases hmem : jid ∈ prior ∪ acc
        · rw [pn_cons_mem rest _ hid hmem, ih prior acc, hrest]
        · have hrec : partitionNew rest (insert jid (prior ∪ acc)) = .error e := by
            rw [hins, ih prior (insert jid acc), hrest]
          rw [pn_cons_new_err rest _ hid hmem hrec]
      | ok ids =>
        have hR : (match idsOf (j :: rest) with
            | Except.error e => Except.error e
            | Except.ok ids =>
              Except.ok (specAccept ((j :: rest).zip ids) prior acc,
                (prior ∪ acc) ∪ ids.toFinset)) =
            Except.ok (specAccept ((j, jid) :: rest.zip ids) prior acc,
              (prior ∪ acc) ∪ (jid :: ids).toFinset) := by
          rw [idsOf_cons_ok_ok rest hid hrest]
          rfl
        rw [hR]
        by_cases hmem : jid ∈ prior ∪ acc
        · have hL : partitionNew (j :: rest) (prior ∪ acc) =
              Except.ok (specAccept (rest.zip ids) prior acc, (prior ∪ acc) ∪ ids.toFinset) := by
            rw [pn_cons_mem rest _ hid hmem, ih prior acc, hrest]
          rw [hL]
          have hcond : ¬(jid ∉ prior ∧ jid ∉ acc) := by
            intro hc
            rcases Finset.mem_union.mp hmem with hm | hm
            · exact hc.1 hm
            · exact hc.2 hm
          have hset : (prior ∪ acc) ∪ (jid :: ids).toFinset = (prior ∪ acc) ∪ ids.toFinset := by
            rw [List.toFinset_cons, Finset.union_insert,
              Finset.insert_eq_self.mpr (Finset.mem_union_left _ hmem)]
          rw [specAccept, if_neg hcond, hset]
        · have hrec : partitionNew rest (insert jid (prior ∪ acc)) =
              Except.ok (specAccept (rest.zip ids) prior (insert jid acc),
                (prior ∪ insert jid acc) ∪ ids.toFinset) := by
            rw [hins, ih prior (insert jid acc), hrest]
          rw [pn_cons_new_ok rest _ hid hmem hrec]
          have hcond : jid ∉ prior ∧ jid ∉ acc :=
            ⟨fun hm => hmem (Finset.mem_union_left _ hm),
             fun hm => hmem (Finset.mem_union_right _ hm)⟩
          have hset : (prior ∪ insert jid acc) ∪ ids.toFinset =
              (prior ∪ acc) ∪ (jid :: ids).toFinset := by
            rw [List.toFinset_cons, Finset.union_insert, Finset.union_insert, Finset.insert_union]
          rw [specAccept, if_pos hcond, hset]

/-- With a truthy link, `job_id` is the link itself. -/
theorem job_id_link (j : Job) (l : String) (hl : j.link.getD none = some l) (hne : l ≠ "") :
    job_id j = .ok l := by
  simp only [job_id, hl]
  rw [if_neg hne]

/-- With a falsy link and string-valued fields, `job_id` is the SHA-256 of the
stripped concatenation. -/
theorem job_id_hash (j : Job) (t c s : String) (hl : truthy (j.link.getD none) = false)
    (ht : pyGetStr j.title = some t) (hc : pyGetStr j.company = some c)
    (hs : pyGetStr j.source = some s) :
    job_id j = .ok (sha256hex (pyStrip (t ++ "|" ++ c ++ "|" ++ s))) := by
  cases hlink : j.link.getD none with
  | none => simp only [job_id, hlink, ht, hc, hs]
  | some l =>
    rw [hlink] at hl
    have hl0 : l = "" := by
      by_contra hne
      simp [truthy, hne] at hl
    subst hl0
    simp [job_id, hlink, ht, hc, hs]

/-- The run-loop partition agrees with the spec-worded one on every input. -/
theorem pn_spec_eq (found : List Job) (seen : Finset String) :
    partitionNew found seen = partitionNewSpec found seen := by
  have h := pn_spec found seen ∅
  rw [Finset.union_empty] at h
  rw [h, partitionNewSpec]


/-! ## Claim C1 — cross-run dedup monotonicity and re-run idempotence -/

/-- Claim C1: after a run that loaded `prev` and computed `(new1, cur)`, the
persisted set is a superset of the loaded one; persisting and re-loading
reproduces `cur`; no record returned as new by the next run (loading that
state) has an identity already in `cur`; and re-running on identical source
output yields zero new records and the unchanged set. -/
theorem dedup_cross_run_monotone (prev : Finset String) (found new1 : List Job)
    (cur : Finset String) (h : partitionNew found prev = .ok (new1, cur)) :
    prev ⊆ cur ∧
    load_previous (save_previous cur) = cur ∧
    (∀ found2 new2 cur2,
      partitionNew found2 (load_previous (save_previous cur)) = .ok (new2, cur2) →
      ∀ j ∈ new2, ∀ i, job_id j = .ok i → i ∉ cur) ∧
    partitionNew found (load_previous (save_previous cur)) = .ok ([], cur) := by
  have hrt : load_previous (save_previous cur) = cur := by
    simp [load_previous, save_previous, Finset.sort_toFinset]
  refine ⟨pn_subset found prev new1 cur h, hrt, ?_, ?_⟩
  · intro found2 new2 cur2 h2 j hj i hi
    rw [hrt] at h2
    exact pn_new_not_seen found2 cur new2 cur2 h2 j hj i hi
  · rw [hrt]
    exact pn_all_seen found cur (pn_found_mem found prev new1 cur h)

/-- Witness for C1 at a concrete one-record run. -/
theorem dedup_cross_run_monotone_witness :
    (∅ : Finset String) ⊆ insert "https://a/1" (∅ : Finset String) ∧
    load_previous (save_previous (insert "https://a/1" (∅ : Finset String))) =
      insert "https://a/1" (∅ : Finset String) ∧
    (∀ found2 new2 cur2,
      partitionNew found2
          (load_previous (save_previous (insert "https://a/1" (∅ : Finset String)))) =
        .ok (new2, cur2) →
      ∀ j ∈ new2, ∀ i, job_id j = .ok i → i ∉ insert "https://a/1" (∅ : Finset String)) ∧
    partitionNew [jobLinkA]
        (load_previous (save_previous (insert "https://a/1" (∅ : Finset String)))) =
      .ok ([], insert "https://a/1" (∅ : Finset String)) :=
  dedup_cross_run_monotone ∅ [jobLinkA] [jobLinkA] (insert "https://a/1" ∅) rfl

/-! ## Claim C2 — within-run partition postcondition -/

/-- Claim C2: the partition step equals the spec-worded classification (new iff
the identity is absent from the prior set and from identities accepted earlier
this run, the updated set being the prior set united with every encountered
identity); the new records are a subsequence of the input in encounter order;
and no two returned records share an identity, so of two records with the same
identity at most the first is returned. -/
theorem partition_within_run (found : List Job) (seen : Finset String) :
    partitionNew found seen = partitionNewSpec found seen ∧
    (∀ new cur, partitionNew found seen = .ok (new, cur) →
      new.Sublist found ∧
      List.Pairwise (fun a b => ∀ ia ib, job_id a = .ok ia → job_id b = .ok ib → ia ≠ ib) new ∧
      ∀ ids, idsOf found = .ok ids → cur = seen ∪ ids.toFinset) := by
  refine ⟨pn_spec_eq found seen, ?_⟩
  intro new cur h
  refine ⟨pn_sublist _ _ _ _ h, pn_pairwise _ _ _ _ h, ?_⟩
  intro ids hids
  have h2 : partitionNew found seen =
      Except.ok (specAccept (found.zip ids) seen ∅, seen ∪ ids.toFinset) := by
    rw [pn_spec_eq found seen]
    simp only [partitionNewSpec]
    rw [hids]
  have h3 := h.symm.trans h2
  simp only [Except.ok.injEq, Prod.mk.injEq] at h3
  exact h3.2

/-- Witness for C2 at a three-record run whose third record repeats the first
identity: only the first copy is returned. -/
theorem partition_within_run_witness :
    partitionNew [jobLinkA, jobLinkB, jobLinkA2] ∅ =
      partitionNewSpec [jobLinkA, jobLinkB, jobLinkA2] ∅ ∧
    ([jobLinkA, jobLinkB].Sublist [jobLinkA, jobLinkB, jobLinkA2] ∧
     List.Pairwise (fun a b => ∀ ia ib, job_id a = .ok ia → job_id b = .ok ib → ia ≠ ib)
       [jobLinkA, jobLinkB] ∧
     insert "https://a/2" (insert "https://a/1" ∅) =
       ∅ ∪ ["https://a/1", "https://a/2", "https://a/1"].toFinset) := by
  have h := partition_within_run [jobLinkA, jobLinkB, jobLinkA2] ∅
  have h2 := h.2 [jobLinkA, jobLinkB] (insert "https://a/2" (insert "https://a/1" ∅)) rfl
  exact ⟨h.1, h2.1, h2.2.1, h2.2.2 ["https://a/1", "https://a/2", "https://a/1"] rfl⟩

/-! ## Claim C3 — identity computation rule -/

/-- Counterexample to C3 as stated: for a linkless record whose title has a
leading space, `job_id` is not the SHA-256 of the raw `title|company|source`
string — the code hashes the whitespace-stripped concatenation. -/
theorem job_id_strip_divergence :
    job_id jobHashWe ≠ Except.ok (sha256hex " a||") := by
  rw [job_id_hash jobHashWe " a" "" "" rfl rfl rfl rfl]
  rw [show pyStrip (" a" ++ "|" ++ "" ++ "|" ++ "") = "a||" from by decide]
  intro h
  have h2 : sha256hex "a||" = sha256hex " a||" := by injection h
  exact absurd h2 (by decide)

/-- Claim C3 (amended): with a present non-empty link the identity is exactly
the link; with a falsy link and string-valued (or absent, read as empty)
fields it is the SHA-256 hash of the whitespace-stripped
`title|company|source` concatenation. -/
theorem job_id_rule (j : Job) :
    (∀ l, j.link.getD none = some l → l ≠ "" → job_id j = .ok l) ∧
    (∀ t c s, truthy (j.link.getD none) = false →
      pyGetStr j.title = some t → pyGetStr j.company = some c → pyGetStr j.source = some s →
      job_id j = .ok (sha256hex (pyStrip (t ++ "|" ++ c ++ "|" ++ s)))) :=
  ⟨fun l hl hne => job_id_link j l hl hne,
   fun t c s hf ht hc hs => job_id_hash j t c s hf ht hc hs⟩

/-- Witness for C3 on both branches. -/
theorem job_id_rule_witness :
    job_id jobLinkA = .ok "https://a/1" ∧
    job_id jobHashW = .ok (sha256hex (pyStrip ("a" ++ "|" ++ "b" ++ "|" ++ "c"))) :=
  ⟨(job_id_rule jobLinkA).1 "https://a/1" rfl (by decide),
   (job_id_rule jobHashW).2 "a" "b" "c" rfl rfl rfl rfl⟩

/-! ## Claim C4 — identity totality (code bug) -/

/-- Claim C4 is violated by the code: a record whose `company` key holds `None`
and whose link is falsy makes `job_id` raise (`None` cannot be concatenated to
a string). The failing record is reachable: it is exactly what the Remotive
adapter produces for an API job object with a matching title and no `url` and
a `null` `company_name`, and it passes the keyword filter into the dedup
stage. -/
theorem job_id_not_total :
    processRemotive (fetch_remotive_jobs [⟨some (some "Junior video editor"), some none, some none⟩]) =
      [⟨some (some "Junior video editor"), some none, some none, some (some "Remotive")⟩] ∧
    job_id ⟨some (some "Junior video editor"), some none, some none, some (some "Remotive")⟩ =
      .error () := by
  constructor
  · decide
  · rfl

/-! ## Claim C5 — identity determinism without a link -/

/-- Counterexample to C5 as stated: two linkless records that differ in exactly
one field (the title, by a leading space) get the same identity, because
`job_id` strips whitespace before hashing — not a SHA-256 collision. -/
theorem job_id_single_field_collision :
    job_id jobHashWs = job_id jobHashW ∧
    jobHashWs.title ≠ jobHashW.title ∧
    jobHashWs.company = jobHashW.company ∧
    jobHashWs.source = jobHashW.source ∧
    jobHashWs.link = none ∧ jobHashW.link = none := by
  refine ⟨?_, by decide, rfl, rfl, rfl, rfl⟩
  rw [job_id_hash jobHashWs " a" "b" "c" rfl rfl rfl rfl,
    job_id_hash jobHashW "a" "b" "c" rfl rfl rfl rfl,
    show pyStrip (" a" ++ "|" ++ "b" ++ "|" ++ "c") = pyStrip ("a" ++ "|" ++ "b" ++ "|" ++ "c")
      from by decide]

/-- Claim C5 (amended): the identity of a linkless record is a function of the
whitespace-stripped `title|company|source` concatenation, so two records with
identical fields — and more generally with strip-equal concatenations, even
when a single field differs in leading/trailing whitespace — get the same
identity; inequality for genuinely different fields holds only up to SHA-256
collisions and is not claimed. -/
theorem job_id_no_link_deterministic (r1 r2 : Job) (t1 c1 s1 t2 c2 s2 : String)
    (hl1 : truthy (r1.link.getD none) = false) (hl2 : truthy (r2.link.getD none) = false)
    (ht1 : pyGetStr r1.title = some t1) (hc1 : pyGetStr r1.company = some c1)
    (hs1 : pyGetStr r1.source = some s1)
    (ht2 : pyGetStr r2.title = some t2) (hc2 : pyGetStr r2.company = some c2)
    (hs2 : pyGetStr r2.source = some s2)
    (hstrip : pyStrip (t1 ++ "|" ++ c1 ++ "|" ++ s1) = pyStrip (t2 ++ "|" ++ c2 ++ "|" ++ s2)) :
    job_id r1 = job_id r2 := by
  rw [job_id_hash r1 t1 c1 s1 hl1 ht1 hc1 hs1, job_id_hash r2 t2 c2 s2 hl2 ht2 hc2 hs2, hstrip]

/-- Witness for C5 with a whitespace-differing pair. -/
theorem job_id_no_link_deterministic_witness :
    job_id jobHashW = job_id jobHashWs :=
  job_id_no_link_deterministic jobHashW jobHashWs "a" "b" "c" " a" "b" "c"
    rfl rfl rfl rfl rfl rfl rfl rfl (by decide)

/-! ## Claim C6 — fetch backoff on non-rejection errors -/

/-- Counterexample to C6 as stated: with every attempt answering HTTP 500 (an
error status other than 200/429/401/403), the default 3-retry fetch makes 3
attempts and returns empty content with an empty sleep list — the code retries
such statuses immediately, with no backoff sleep at all. -/
theorem fetch_no_sleep_on_other_status :
    safe_get_text ⟨fun _ => .resp 500 "", fun _ => 7, fun _ => 2⟩ 3 2 = ⟨"", [], 3⟩ := rfl

/-- Claim C6 (amended): a transport-level failure at any attempt sleeps
`backoff * attempt + jitter` — with the jitter drawn from the exception range
(1–3 s), narrower than the 5–10 s range of the rate-limit branch — and then
retries, consuming one attempt; an error status other than 200/429/403/401
retries immediately, consuming one attempt, without sleeping. -/
theorem fetch_backoff_policy (env : FetchEnv) (b : ℚ) (a fuel : Nat) :
    (env.outcome a = .exc →
      fetchGo env b a (fuel + 1) =
        ⟨(fetchGo env b (a + 1) fuel).text,
         (b * (a : ℚ) + env.jitterExc a) :: (fetchGo env b (a + 1) fuel).sleeps,
         (fetchGo env b (a + 1) fuel).attempts + 1⟩) ∧
    (∀ code body, env.outcome a = .resp code body →
      code ≠ 200 → code ≠ 429 → code ≠ 403 → code ≠ 401 →
      fetchGo env b a (fuel + 1) =
        ⟨(fetchGo env b (a + 1) fuel).text, (fetchGo env b (a + 1) fuel).sleeps,
         (fetchGo env b (a + 1) fuel).attempts + 1⟩) := by
  constructor
  · intro hx
    simp [fetchGo, hx]
  · intro code body hr h200 h429 h403 h401
    simp [fetchGo, hr, h200, h429, h403, h401]

/-- Witness for C6: one exception attempt and one HTTP-500 attempt, each
consuming an attempt, the former with a recorded sleep, the latter without. -/
theorem fetch_backoff_policy_witness :
    fetchGo ⟨fun _ => .exc, fun _ => 7, fun _ => 1⟩ 2 1 3 =
      ⟨(fetchGo ⟨fun _ => .exc, fun _ => 7, fun _ => 1⟩ 2 2 2).text,
       (2 * (1 : ℚ) + 1) :: (fetchGo ⟨fun _ => .exc, fun _ => 7, fun _ => 1⟩ 2 2 2).sleeps,
       (fetchGo ⟨fun _ => .exc, fun _ => 7, fun _ => 1⟩ 2 2 2).attempts + 1⟩ ∧
    fetchGo ⟨fun _ => .resp 500 "", fun _ => 7, fun _ => 1⟩ 2 1 3 =
      ⟨(fetchGo ⟨fun _ => .resp 500 "", fun _ => 7, fun _ => 1⟩ 2 2 2).text,
       (fetchGo ⟨fun _ => .resp 500 "", fun _ => 7, fun _ => 1⟩ 2 2 2).sleeps,
       (fetchGo ⟨fun _ => .resp 500 "", fun _ => 7, fun _ => 1⟩ 2 2 2).attempts + 1⟩ :=
  ⟨(fetch_backoff_policy ⟨fun _ => .exc, fun _ => 7, fun _ => 1⟩ 2 1 2).1 rfl,
   (fetch_backoff_policy ⟨fun _ => .resp 500 "", fun _ => 7, fun _ => 1⟩ 2 1 2).2 500 "" rfl
     (by decide) (by decide) (by decide) (by decide)⟩

/-! ## Claim C7 — fetch attempt counts -/

/-- Counterexample to C7 as stated: jitter values drawn inside the real 5–10 s
range can make the slept delays decrease between attempts (12 s, then 9 s),
so the delays are not non-decreasing. -/
theorem fetch_429_jitter_decreasing :
    safe_get_text ⟨fun _ => .resp 429 "", fun a => if a = 1 then 10 else 5, fun _ => 1⟩ 3 2 =
      ⟨"", [12, 9, 11], 3⟩ ∧
    ¬ List.Chain' (fun x y : ℚ => x ≤ y) [12, 9, 11] := by
  constructor
  · show FetchResult.mk "" [2 * (1 : ℚ) + 10, 2 * (2 : ℚ) + 5, 2 * (3 : ℚ) + 5] 3 = _
    norm_num
  · simp only [List.chain'_cons, List.chain'_singleton, and_true]
    intro h
    exact absurd h.1 (by norm_num)

/-- Claim C7 (amended): with 3 retries against a source answering 429 on every
attempt, fetch makes exactly 3 attempts, returns empty content, and sleeps
`2·1+j1, 2·2+j2, 2·3+j3`; these delays are non-decreasing whenever each jitter
drops by at most the backoff step (e.g. constant jitter) — which the 5–10 s
jitter range does not guarantee. Against a source answering 403 or 401 on the
first attempt, fetch makes exactly 1 attempt and returns empty content. -/
theorem fetch_429_403_attempts (env env4 : FetchEnv) (j1 j2 j3 : ℚ) (body : String) (code : Nat)
    (h1 : env.outcome 1 = .resp 429 "") (h2 : env.outcome 2 = .resp 429 "")
    (h3 : env.outcome 3 = .resp 429 "")
    (e1 : env.jitter429 1 = j1) (e2 : env.jitter429 2 = j2) (e3 : env.jitter429 3 = j3)
    (h4 : env4.outcome 1 = .resp code body) (hc : code = 403 ∨ code = 401) :
    safe_get_text env 3 2 = ⟨"", [2 * 1 + j1, 2 * 2 + j2, 2 * 3 + j3], 3⟩ ∧
    (j1 ≤ 2 + j2 → j2 ≤ 2 + j3 →
      List.Chain' (fun x y : ℚ => x ≤ y) [2 * 1 + j1, 2 * 2 + j2, 2 * 3 + j3]) ∧
    safe_get_text env4 3 2 = ⟨"", [], 1⟩ := by
  refine ⟨?_, ?_, ?_⟩
  · simp [safe_get_text, fetchGo, h1, h2, h3, e1, e2, e3]
  · intro hj1 hj2
    simp only [List.chain'_cons, List.chain'_singleton, and_true]
    constructor
    · linarith
    · linarith
  · rcases hc with rfl | rfl
    · simp [safe_get_text, fetchGo, h4]
    · simp [safe_get_text, fetchGo, h4]

/-- Witness for C7 with constant in-range jitter 5 and a 403 rejection. -/
theorem fetch_429_403_attempts_witness :
    safe_get_text ⟨fun _ => .resp 429 "", fun _ => 5, fun _ => 1⟩ 3 2 =
      ⟨"", [2 * 1 + 5, 2 * 2 + 5, 2 * 3 + 5], 3⟩ ∧
    ((5 : ℚ) ≤ 2 + 5 → (5 : ℚ) ≤ 2 + 5 →
      List.Chain' (fun x y : ℚ => x ≤ y) [2 * 1 + 5, 2 * 2 + 5, 2 * 3 + 5]) ∧
    safe_get_text ⟨fun _ => .resp 403 "denied", fun _ => 5, fun _ => 1⟩ 3 2 = ⟨"", [], 1⟩ :=
  fetch_429_403_attempts ⟨fun _ => .resp 429 "", fun _ => 5, fun _ => 1⟩
    ⟨fun _ => .resp 403 "denied", fun _ => 5, fun _ => 1⟩ 5 5 5 "denied" 403
    rfl rfl rfl rfl rfl rfl rfl (Or.inl rfl)

/-! ## Claim C8 — delivery fallback chain -/

theorem string_append_data (s t : String) : (s ++ t).data = s.data ++ t.data := rfl

theorem string_ne_of_head (s t : String) (h : s.data.head? ≠ t.data.head?) : s ≠ t :=
  fun he => h (by rw [he])

/-- The rendered report of a non-empty run starts with the template's leading
newline, while the Telegram summary starts with the letter F. -/
theorem summary_ne_report (jobs : List Job) (now : String) (hne : jobs ≠ []) :
    telegramSummary jobs.length ≠ build_html_table jobs now := by
  refine string_ne_of_head _ _ ?_
  have h1 : (telegramSummary jobs.length).data.head? = some 'F' := by
    rw [telegramSummary, string_append_data, string_append_data]
    rfl
  have h2 : (build_html_table jobs now).data.head? = some (Char.ofNat 10) := by
    simp only [build_html_table, if_neg hne, tableHead]
    rw [string_append_data, string_append_data, string_append_data, string_append_data,
      string_append_data, string_append_data]
    rfl
  rw [h1, h2]
  decide

/-- Counterexample to C8 as stated: in the scenario (SendGrid configured but
failing, Gmail unconfigured, Telegram configured and succeeding) the SendGrid
send IS invoked (with the full report), so not only channel 3's; and the final
sent flag is `false`, not `true` — `main` discards Telegram's result. -/
theorem delivery_fallback_divergence :
    deliveryPhase ⟨true, true, true, false, true, true, false, true, true⟩ [jobLinkA] "t" =
      (false, [(.sendgrid, build_html_table [jobLinkA] "t"), (.telegram, telegramSummary 1)]) ∧
    (deliveryPhase ⟨true, true, true, false, true, true, false, true, true⟩ [jobLinkA] "t").1 ≠
      true ∧
    ((deliveryPhase ⟨true, true, true, false, true, true, false, true, true⟩
        [jobLinkA] "t").2.map Prod.fst) ≠ [Channel.telegram] := by
  refine ⟨rfl, ?_, ?_⟩
  · intro h
    exact Bool.false_ne_true h
  · show [Channel.sendgrid, Channel.telegram] ≠ [Channel.telegram]
    decide

/-- Claim C8 (amended): channels are tried in the fixed order SendGrid, Gmail,
Telegram, stopping at the first reported success, with an unconfigured channel
skipped. In the scenario (1 configured-but-failing, 2 unconfigured, 3
configured-and-succeeding): channel 1 is invoked with the full report and
fails, channel 2 is never invoked, channel 3 is invoked with only the short
count summary — never the rendered report — and succeeds, but `main` discards
that success, so the sent flag stays false. When channel 1 succeeds instead,
it is the only channel invoked. -/
theorem delivery_fallback_chain (env : DeliverEnv) (jobs : List Job) (now : String)
    (hne : jobs ≠ []) (hk : env.sendgridKey = true) (hto : env.toEmail = true)
    (hfrom : env.fromEmail = true) (hsmtp : env.smtpPass = false)
    (htk : env.tgToken = true) (htc : env.tgChat = true) (hsg : env.sendgridOk = false) :
    deliveryPhase env jobs now =
      (false, [(.sendgrid, build_html_table jobs now),
               (.telegram, telegramSummary jobs.length)]) ∧
    telegramSummary jobs.length ≠ build_html_table jobs now ∧
    (∀ env2 : DeliverEnv, env2.sendgridKey = true → env2.toEmail = true →
      env2.fromEmail = true → env2.sendgridOk = true →
      deliveryPhase env2 jobs now = (true, [(.sendgrid, build_html_table jobs now)])) := by
  refine ⟨?_, summary_ne_report jobs now hne, ?_⟩
  · simp [deliveryPhase, send_via_sendgrid, send_via_gmail, send_telegram_short, hne, hk, hto,
      hfrom, hsmtp, htk, htc, hsg]
  · intro env2 hk2 hto2 hfrom2 hsg2
    simp [deliveryPhase, send_via_sendgrid, hne, hk2, hto2, hfrom2, hsg2]

/-- Witness for C8 at a concrete environment and one-record run. -/
theorem delivery_fallback_chain_witness :
    deliveryPhase ⟨true, true, true, false, true, true, false, false, true⟩ [jobLinkA] "t" =
      (false, [(.sendgrid, build_html_table [jobLinkA] "t"),
               (.telegram, telegramSummary [jobLinkA].length)]) ∧
    telegramSummary [jobLinkA].length ≠ build_html_table [jobLinkA] "t" ∧
    (∀ env2 : DeliverEnv, env2.sendgridKey = true → env2.toEmail = true →
      env2.fromEmail = true → env2.sendgridOk = true →
      deliveryPhase env2 [jobLinkA] "t" = (true, [(.sendgrid, build_html_table [jobLinkA] "t")])) :=
  delivery_fallback_chain ⟨true, true, true, false, true, true, false, false, true⟩ [jobLinkA] "t"
    (by decide) rfl rfl rfl rfl rfl rfl rfl

/-! ## Claim C9 — implicit report truncation -/

/-- Claim C9: for a non-empty run the table holds `min 100 n` rows — the rows
depend only on the first 100 records, so records beyond 100 are omitted —
while the headline of the same report carries the full count `n`; hence for
`n > 100` the table has fewer rows than the headline announces. -/
theorem report_truncation (jobs : List Job) (now : String) (hne : jobs ≠ []) :
    (buildRows jobs).length = min 100 jobs.length ∧
    buildRows jobs = buildRows (jobs.take 100) ∧
    build_html_table jobs now =
      tableHead now ++ toString jobs.length ++ tableMid ++ String.join (buildRows jobs) ++
        tableFoot ∧
    (100 < jobs.length → (buildRows jobs).length < jobs.length) := by
  have hlen : (buildRows jobs).length = min 100 jobs.length := by
    simp [buildRows, List.length_take]
  refine ⟨hlen, ?_, ?_, ?_⟩
  · simp [buildRows, List.take_take]
  · simp only [build_html_table, if_neg hne]
  · intro hgt
    rw [hlen]
    omega

/-- Witness for C9 at a single-record run. -/
theorem report_truncation_witness :
    (buildRows [jobLinkA]).length = min 100 [jobLinkA].length ∧
    buildRows [jobLinkA] = buildRows ([jobLinkA].take 100) ∧
    build_html_table [jobLinkA] "t" =
      tableHead "t" ++ toString [jobLinkA].length ++ tableMid ++
        String.join (buildRows [jobLinkA]) ++ tableFoot ∧
    (100 < [jobLinkA].length → (buildRows [jobLinkA]).length < [jobLinkA].length) :=
  report_truncation [jobLinkA] "t" (by decide)

/-! ## Claim C10 — implicit link requirement for HTML sources -/

/-- Claim C10: every record surviving the HTML-source stage of `main` has a
truthy link and its dedup identity is exactly that link (never the content
hash); a record with a falsy link is dropped by that stage regardless of its
title; the Remotive records are filtered only on keywords, so a keyword-
matching record without a link does enter the dedup stage. -/
theorem html_link_requirement :
    (∀ name items j, j ∈ processHtmlItems name items →
      ∃ l, j.link.getD none = some l ∧ l ≠ "" ∧ job_id j = .ok l) ∧
    (∀ name it, truthy (it.link.getD none) = false → processHtmlItems name [it] = []) ∧
    (∀ data rj, rj ∈ data → keywords_match (pyGetStr (remotiveRecord rj).title) = true →
      remotiveRecord rj ∈ processRemotive (fetch_remotive_jobs data)) := by
  refine ⟨?_, ?_, ?_⟩
  · intro name items j hj
    simp only [processHtmlItems, List.mem_map, List.mem_filter, Bool.and_eq_true] at hj
    obtain ⟨it, ⟨_, ⟨hkm, hlink⟩⟩, rfl⟩ := hj
    have hpres : (setSourceFields name it).link = it.link := rfl
    cases hl : it.link.getD none with
    | none => rw [hl] at hlink; exact absurd hlink (by simp [truthy])
    | some l =>
      rw [hl] at hlink
      have hne : l ≠ "" := by
        intro h0
        rw [h0] at hlink
        exact absurd hlink (by simp [truthy])
      refine ⟨l, ?_, hne, ?_⟩
      · rw [hpres, hl]
      · exact job_id_link _ l (by rw [hpres, hl]) hne
  · intro name it hfalse
    simp [processHtmlItems, hfalse]
  · intro data rj hmem hkm
    simp only [processRemotive, fetch_remotive_jobs, List.mem_filter, List.mem_map]
    exact ⟨⟨rj, hmem, rfl⟩, hkm⟩

/-- Witness for C10: a linked record surviving the HTML stage with its link as
identity, a keyword-matching linkless record dropped by the HTML stage, and a
keyword-matching linkless Remotive record entering dedup. -/
theorem html_link_requirement_witness :
    (∃ l, (setSourceFields "Indeed" jobLinkA).link.getD none = some l ∧ l ≠ "" ∧
      job_id (setSourceFields "Indeed" jobLinkA) = .ok l) ∧
    processHtmlItems "RemoteRocketship" [jobHashW] = [] ∧
    remotiveRecord ⟨some (some "A video intern role"), some none, some none⟩ ∈
      processRemotive
        (fetch_remotive_jobs [⟨some (some "A video intern role"), some none, some none⟩]) :=
  ⟨html_link_requirement.1 "Indeed" [jobLinkA] (setSourceFields "Indeed" jobLinkA) (by decide),
   html_link_requirement.2.1 "RemoteRocketship" jobHashW rfl,
   html_link_requirement.2.2 [⟨some (some "A video intern role"), some none, some none⟩]
     ⟨some (some "A video intern role"), some none, some none⟩ (by decide) (by decide)⟩

end JobAlert
